import Mathlib

/-!
Verification of the streaming-event consumer and conversation-turn state
machine of `frontend/src/App.jsx` (the ReAct chat client).

The embedding follows the source closely:

* `jsonParse` models the `JSON.parse` call on one wire line.  The wire
  protocol (spec section 6) uses flat JSON objects whose fields are strings and
  integers, so the model parses flat JSON: objects and arrays whose values are
  primitives, and integer numbers (no fraction/exponent part).  All theorems
  quantifying over lines are conditioned on the classification outcome, and
  all concrete inputs are inside this fragment.
* `jsSplit`, `jsTrim` model `String.prototype.split` (single-character
  separator) and `String.prototype.trim`.
* `classifyLine` models the body of the inner `try` of `handleSend`:
  `JSON.parse` followed by the dispatch on `data.type`.
* `processLine` / `runChunk` / `runChunks` model the `while/for` loop of
  `handleSend` over decoded chunks; `handleSend` models the whole function
  including the guard, the `catch` block and the `finally` block.
* `toggleThinking` models the `toggleThinking` callback.
-/

/-- A primitive JSON value: `null`, boolean, integer number, or string. -/
inductive JPrim where
  | null
  | bool (b : Bool)
  | num (n : Int)
  | str (s : String)
deriving DecidableEq

/-- A flat JSON value: a primitive, an array of primitives, or an object whose
field values are primitives.  This covers the wire protocol records of
spec section 6. -/
inductive JValue where
  | prim (p : JPrim)
  | arr (elems : List JPrim)
  | obj (fields : List (String × JPrim))
deriving DecidableEq

/-- JSON insignificant whitespace (RFC 8259). -/
def jsonWs (c : Char) : Bool :=
  c = ' ' || c = '\t' || c = '\n' || c = '\r'

/-- Skip JSON whitespace. -/
def skipWs (cs : List Char) : List Char :=
  cs.dropWhile jsonWs

/-- Value of one hexadecimal digit. -/
def hexVal (c : Char) : Option Nat :=
  if '0' ≤ c ∧ c ≤ '9' then some (c.toNat - '0'.toNat)
  else if 'a' ≤ c ∧ c ≤ 'f' then some (c.toNat - 'a'.toNat + 10)
  else if 'A' ≤ c ∧ c ≤ 'F' then some (c.toNat - 'A'.toNat + 10)
  else none

/-- Parse the body of a JSON string after the opening quote, returning the
decoded characters and the input after the closing quote.  Escape sequences
follow RFC 8259; a `\u` escape must denote a scalar value (surrogate pairs are
outside the protocol's content and are not modelled). -/
def parseStrBody : List Char → Option (List Char × List Char)
  | [] => none
  | '"' :: rest => some ([], rest)
  | '\\' :: '"' :: rest => (parseStrBody rest).map (fun p => ('"' :: p.1, p.2))
  | '\\' :: '\\' :: rest => (parseStrBody rest).map (fun p => ('\\' :: p.1, p.2))
  | '\\' :: '/' :: rest => (parseStrBody rest).map (fun p => ('/' :: p.1, p.2))
  | '\\' :: 'b' :: rest => (parseStrBody rest).map (fun p => ('\x08' :: p.1, p.2))
  | '\\' :: 'f' :: rest => (parseStrBody rest).map (fun p => ('\x0c' :: p.1, p.2))
  | '\\' :: 'n' :: rest => (parseStrBody rest).map (fun p => ('\n' :: p.1, p.2))
  | '\\' :: 'r' :: rest => (parseStrBody rest).map (fun p => ('\r' :: p.1, p.2))
  | '\\' :: 't' :: rest => (parseStrBody rest).map (fun p => ('\t' :: p.1, p.2))
  | '\\' :: 'u' :: h1 :: h2 :: h3 :: h4 :: rest =>
      match hexVal h1, hexVal h2, hexVal h3, hexVal h4 with
      | some a, some b, some c, some d =>
          let n := a * 4096 + b * 256 + c * 16 + d
          if n < 0xd800 then
            (parseStrBody rest).map (fun p => (Char.ofNat n :: p.1, p.2))
          else if 0xdfff < n then
            (parseStrBody rest).map (fun p => (Char.ofNat n :: p.1, p.2))
          else none
      | _, _, _, _ => none
  | '\\' :: _ => none
  | c :: rest =>
      if c.toNat < 0x20 then none
      else (parseStrBody rest).map (fun p => (c :: p.1, p.2))

/-- Consume a run of decimal digits, extending the accumulator. -/
def digitsAcc (acc : Nat) : List Char → Nat × List Char
  | [] => (acc, [])
  | c :: cs =>
      if '0' ≤ c ∧ c ≤ '9' then digitsAcc (acc * 10 + (c.toNat - '0'.toNat)) cs
      else (acc, c :: cs)

/-- Parse the integer part of a JSON number (`0`, or a nonzero digit followed
by digits), per the RFC 8259 grammar. -/
def parseNumNat : List Char → Option (Nat × List Char)
  | '0' :: rest => some (0, rest)
  | c :: rest =>
      if '1' ≤ c ∧ c ≤ '9' then some (digitsAcc (c.toNat - '0'.toNat) rest)
      else none
  | [] => none

/-- Parse a JSON integer with optional leading minus sign. -/
def parseNum : List Char → Option (Int × List Char)
  | '-' :: cs => (parseNumNat cs).map (fun p => (-(Int.ofNat p.1), p.2))
  | cs => (parseNumNat cs).map (fun p => (Int.ofNat p.1, p.2))

/-- Parse a primitive JSON value (string, `true`, `false`, `null`, or integer
number; a fraction or exponent part makes the parse fail, see module note). -/
def parsePrim (cs : List Char) : Option (JPrim × List Char) :=
  match cs with
  | '"' :: rest => (parseStrBody rest).map (fun p => (JPrim.str (String.mk p.1), p.2))
  | 't' :: 'r' :: 'u' :: 'e' :: rest => some (JPrim.bool true, rest)
  | 'f' :: 'a' :: 'l' :: 's' :: 'e' :: rest => some (JPrim.bool false, rest)
  | 'n' :: 'u' :: 'l' :: 'l' :: rest => some (JPrim.null, rest)
  | other =>
      match parseNum other with
      | some (n, rest) =>
          match rest with
          | '.' :: _ => none
          | 'e' :: _ => none
          | 'E' :: _ => none
          | _ => some (JPrim.num n, rest)
      | none => none

/-- Parse the comma-separated elements of a nonempty array, up to and
including the closing bracket.  `fuel` bounds the recursion; callers pass more
fuel than the input length, so it never runs out on real input. -/
def parseArrElems : Nat → List Char → Option (List JPrim × List Char)
  | 0, _ => none
  | fuel + 1, cs =>
      match parsePrim (skipWs cs) with
      | none => none
      | some (p, rest) =>
          match skipWs rest with
          | ',' :: rest2 => (parseArrElems fuel rest2).map (fun q => (p :: q.1, q.2))
          | ']' :: rest2 => some ([p], rest2)
          | _ => none

/-- Parse the comma-separated members of a nonempty object, up to and
including the closing brace. -/
def parseObjMembers : Nat → List Char → Option (List (String × JPrim) × List Char)
  | 0, _ => none
  | fuel + 1, cs =>
      match skipWs cs with
      | '"' :: rest =>
          match parseStrBody rest with
          | none => none
          | some (key, rest1) =>
              match skipWs rest1 with
              | ':' :: rest2 =>
                  match parsePrim (skipWs rest2) with
                  | none => none
                  | some (v, rest3) =>
                      match skipWs rest3 with
                      | ',' :: rest4 =>
                          (parseObjMembers fuel rest4).map
                            (fun q => ((String.mk key, v) :: q.1, q.2))
                      | '\x7d' :: rest4 => some ([(String.mk key, v)], rest4)
                      | _ => none
              | _ => none
      | _ => none

/-- Parse one JSON document: an object, an array, or a primitive. -/
def parseTop (fuel : Nat) (cs : List Char) : Option (JValue × List Char) :=
  match skipWs cs with
  | '\x7b' :: rest =>
      match skipWs rest with
      | '\x7d' :: rest2 => some (JValue.obj [], rest2)
      | _ => (parseObjMembers fuel rest).map (fun q => (JValue.obj q.1, q.2))
  | '[' :: rest =>
      match skipWs rest with
      | ']' :: rest2 => some (JValue.arr [], rest2)
      | _ => (parseArrElems fuel rest).map (fun q => (JValue.arr q.1, q.2))
  | other => (parsePrim other).map (fun p => (JValue.prim p.1, p.2))

/-- Model of `JSON.parse(line)`: `none` when the call would throw. -/
def jsonParse (s : String) : Option JValue :=
  match parseTop (s.data.length + 1) s.data with
  | some (v, rest) => if (skipWs rest).isEmpty then some v else none
  | none => none

/-- JavaScript object field access for a parsed JSON object: with duplicate
keys, `JSON.parse` keeps the last occurrence; a missing key reads as
`undefined` (`none`). -/
def lookupField (fields : List (String × JPrim)) (key : String) : Option JPrim :=
  fields.foldl (fun acc kv => if kv.1 = key then some kv.2 else acc) none

/-- JavaScript string coercion (template-literal interpolation) of a possibly
`undefined` primitive value. -/
def jsToString : Option JPrim → String
  | none => "undefined"
  | some JPrim.null => "null"
  | some (JPrim.bool true) => "true"
  | some (JPrim.bool false) => "false"
  | some (JPrim.num n) => toString n
  | some (JPrim.str s) => s

/-- `String.prototype.split` with a one-character separator. -/
def jsSplitAux (sep : Char) : List Char → List Char → List String
  | acc, [] => [String.mk acc.reverse]
  | acc, c :: cs =>
      if c = sep then String.mk acc.reverse :: jsSplitAux sep [] cs
      else jsSplitAux sep (c :: acc) cs

/-- `s.split(sep)` for a single-character separator, as in `chunk.split('\n')`. -/
def jsSplit (s : String) (sep : Char) : List String :=
  jsSplitAux sep [] s.data

/-- The whitespace set of `String.prototype.trim` (ECMA-262 TrimString). -/
def isJsWhitespace (c : Char) : Bool :=
  c = ' ' || c = '\t' || c = '\n' || c = '\r' || c = '\x0b' || c = '\x0c' ||
  c = '\xa0' || c = '\u1680' || ('\u2000' ≤ c && c ≤ '\u200a') ||
  c = '\u2028' || c = '\u2029' || c = '\u202f' || c = '\u205f' ||
  c = '\u3000' || c = '\ufeff'

/-- `s.trim()`. -/
def jsTrim (s : String) : String :=
  String.mk (((s.data.dropWhile isJsWhitespace).reverse.dropWhile isJsWhitespace).reverse)

/-- One entry of the in-flight reasoning trace, exactly as pushed onto
`currentSteps` in `handleSend`: a `thought` event pushes
`{step: 0, type: 'thought', content}` (the constant step 0 is implicit in the
constructor), a `step` event pushes
`{step, type: 'action', thought, action, observation}`.  Fields hold the raw
JSON field values; a missing field reads as `undefined` (`none`). -/
inductive TraceEntry where
  | thought (content : Option JPrim)
  | action (step thought act obs : Option JPrim)
deriving DecidableEq

/-- The closed set of stream events distinguished by the dispatch on
`data.type` in `handleSend`.  `other` is any successfully parsed line whose
`type` does not match one of the four recognized strings (including arrays,
non-null primitives, and objects without a `type` field): the loop body
ignores such a line silently. -/
inductive StreamEvent where
  | thought (content : Option JPrim)
  | step (index thoughtF actionF observationF : Option JPrim)
  | finalAnswer (content : Option JPrim)
  | error (content : Option JPrim)
  | other
deriving DecidableEq

/-- Result of running the inner `try` body on one line: either a classified
event, or the `catch` branch (`console.error('解析步骤数据失败', …)`), which is
reached when `JSON.parse` throws, and also when the line parses to `null`
(reading `data.type` of `null` throws a TypeError that the same `catch`
swallows). -/
inductive LineResult where
  | event (e : StreamEvent)
  | parseFailure
deriving DecidableEq

/-- `JSON.parse(line)` plus the dispatch on `data.type` of `handleSend`. -/
def classifyLine (line : String) : LineResult :=
  match jsonParse line with
  | none => LineResult.parseFailure
  | some (JValue.prim JPrim.null) => LineResult.parseFailure
  | some (JValue.obj fields) =>
      match lookupField fields "type" with
      | some (JPrim.str "thought") =>
          LineResult.event (StreamEvent.thought (lookupField fields "content"))
      | some (JPrim.str "step") =>
          LineResult.event (StreamEvent.step (lookupField fields "step")
            (lookupField fields "thought") (lookupField fields "action")
            (lookupField fields "observation"))
      | some (JPrim.str "final_answer") =>
          LineResult.event (StreamEvent.finalAnswer (lookupField fields "content"))
      | some (JPrim.str "error") =>
          LineResult.event (StreamEvent.error (lookupField fields "content"))
      | _ => LineResult.event StreamEvent.other
  | some _ => LineResult.event StreamEvent.other

/-- A conversation record as pushed by `setConversations(prev => [...prev, …])`
inside the stream loop.  All records pushed during one `handleSend` call share
the single mutable `assistantMessage` object, so the assistant content is
resolved only when the call finishes (see `handleSend`); until then a pending
record carries the trace snapshot and the `showThinking: true` flag. -/
structure PendingTurn where
  thinkingSteps : List TraceEntry
  showThinking : Bool
deriving DecidableEq

/-- The mutable state of the stream-consumption loop of `handleSend`:
the `assistantMessage.content` cell, the local `currentSteps` array, the
`hasFinalAnswer` flag, the conversation records appended so far, the
`currentThinkingSteps` React state, and the lines reported through
`console.error` by the `catch` of the inner `try`. -/
structure LoopState where
  assistantContent : Option JPrim
  currentSteps : List TraceEntry
  hasFinalAnswer : Bool
  commits : List PendingTurn
  currentThinkingSteps : List TraceEntry
  reportedLines : List String
deriving DecidableEq

/-- Loop state at entry: `assistantMessage = {role:'assistant', content: ''}`,
`currentSteps = []`, `hasFinalAnswer = false`. -/
def initLoopState : LoopState :=
  ⟨some (JPrim.str ""), [], false, [], [], []⟩

/-- One iteration of the dispatch on a classified event, as in the `for` body
of `handleSend`.  A terminal event appends a conversation record holding the
snapshot `[...currentSteps]` and clears the `currentThinkingSteps` state; the
local `currentSteps` array itself is not cleared by either terminal branch. -/
def processEvent (s : LoopState) (e : StreamEvent) : LoopState :=
  match e with
  | StreamEvent.thought c =>
      let steps := s.currentSteps ++ [TraceEntry.thought c]
      { s with currentSteps := steps, currentThinkingSteps := steps }
  | StreamEvent.step i t a o =>
      let steps := s.currentSteps ++ [TraceEntry.action i t a o]
      { s with currentSteps := steps, currentThinkingSteps := steps }
  | StreamEvent.finalAnswer c =>
      { s with assistantContent := c,
               hasFinalAnswer := true,
               commits := s.commits ++ [⟨s.currentSteps, true⟩],
               currentThinkingSteps := [] }
  | StreamEvent.error c =>
      { s with assistantContent := some (JPrim.str ("错误: " ++ jsToString c)),
               commits := s.commits ++ [⟨s.currentSteps, true⟩],
               currentThinkingSteps := [] }
  | StreamEvent.other => s

/-- Process one framed line: the inner `try`/`catch` of the `for` body. -/
def processLine (s : LoopState) (line : String) : LoopState :=
  match classifyLine line with
  | LineResult.parseFailure => { s with reportedLines := s.reportedLines ++ [line] }
  | LineResult.event e => processEvent s e

/-- The lines extracted from one decoded chunk:
`chunk.split('\n').filter(line => line.trim())`. -/
def chunkLines (chunk : String) : List String :=
  (jsSplit chunk '\n').filter (fun l => !(jsTrim l == ""))

/-- Process one decoded chunk (one iteration of the `while` loop). -/
def runChunk (s : LoopState) (chunk : String) : LoopState :=
  (chunkLines chunk).foldl processLine s

/-- Run the whole stream loop over the decoded chunks, in arrival order. -/
def runChunks (chunks : List String) : LoopState :=
  chunks.foldl runChunk initLoopState

/-- Run the loop over already-classified events (the event-level view of the
same dispatch, used to state protocol-level properties). -/
def runEvents (evs : List StreamEvent) : LoopState :=
  evs.foldl processEvent initLoopState

/-- A committed conversation record as observed after `handleSend` returns:
the pending record plus the shared user message and the final value of the
shared `assistantMessage.content` cell. -/
structure Conv where
  userMessage : String
  thinkingSteps : List TraceEntry
  assistantContent : Option JPrim
  showThinking : Bool
deriving DecidableEq

/-- The component state touched by `handleSend` and `toggleThinking`. -/
structure AppState where
  conversations : List Conv
  inputValue : String
  isLoading : Bool
  currentThinkingSteps : List TraceEntry
deriving DecidableEq

/-- How the fetch and the stream read end, from the consumer's viewpoint:
`ok chunks`: the response was ok and the reader delivered `chunks` and then
`done`; `failEarly`: `fetch` rejected or `response.ok` was false (the `throw`
before any chunk); `failMid chunks`: `chunks` were delivered and then a read
threw (transport aborted mid-stream). -/
inductive FetchOutcome where
  | ok (chunks : List String)
  | failEarly
  | failMid (chunks : List String)
deriving DecidableEq

/-- Result of one `handleSend` call: the component state after all queued
updates apply, whether a network request was initiated, whether an exception
escaped the handler (an unhandled rejection), and the lines reported by the
inner `catch`. -/
structure SendResult where
  state : AppState
  opened : Bool
  crashed : Bool
  reportedLines : List String
deriving DecidableEq

/-- The whole `handleSend` function.

* Guard: `if (!inputValue.trim() || isLoading) return;` — nothing happens.
* Otherwise the input is cleared, loading is set, `currentThinkingSteps` is
  cleared, and the stream is consumed by `runChunks`.
* In the `failEarly` and `failMid` outcomes control reaches the `catch`
  block, which references `setMessages` and `setShowThinking` — neither is
  defined in this component — so a ReferenceError escapes (`crashed = true`);
  the `finally` still runs and clears `isLoading`.
* Conversation records pushed during the loop all alias the one
  `assistantMessage` object, so each committed record's assistant content is
  the cell's final value. -/
def handleSend (st : AppState) (outcome : FetchOutcome) : SendResult :=
  if jsTrim st.inputValue = "" ∨ st.isLoading = true then
    ⟨st, false, false, []⟩
  else
    let userMsg := jsTrim st.inputValue
    match outcome with
    | FetchOutcome.failEarly =>
        ⟨⟨st.conversations, "", false, []⟩, true, true, []⟩
    | FetchOutcome.failMid chunks =>
        let ls := runChunks chunks
        ⟨⟨st.conversations ++ ls.commits.map
            (fun c => ⟨userMsg, c.thinkingSteps, ls.assistantContent, c.showThinking⟩),
          "", false, ls.currentThinkingSteps⟩, true, true, ls.reportedLines⟩
    | FetchOutcome.ok chunks =>
        let ls := runChunks chunks
        ⟨⟨st.conversations ++ ls.commits.map
            (fun c => ⟨userMsg, c.thinkingSteps, ls.assistantContent, c.showThinking⟩),
          "", false, ls.currentThinkingSteps⟩, true, false, ls.reportedLines⟩

/-- The JavaScript exception raised by `toggleThinking` on an invalid index:
`newConversations[index]` is `undefined` and reading `.showThinking` of
`undefined` throws a TypeError. -/
inductive JsError where
  | typeError
deriving DecidableEq

/-- Flip `showThinking` of the element at a valid position, as
`newConversations[index].showThinking = !newConversations[index].showThinking`
does (the array is copied with a spread, the element object is mutated in
place; all other elements are shared unchanged). -/
def toggleAt : List Conv → Nat → List Conv
  | [], _ => []
  | c :: cs, 0 => { c with showThinking := !c.showThinking } :: cs
  | c :: cs, n + 1 => c :: toggleAt cs n

/-- The `toggleThinking` callback.  A negative index or an index at or beyond
the array length reads `undefined` from the array and faults with a
TypeError. -/
def toggleThinking (convs : List Conv) (index : Int) : Except JsError (List Conv) :=
  if 0 ≤ index ∧ index.toNat < convs.length then
    Except.ok (toggleAt convs index.toNat)
  else
    Except.error JsError.typeError

/-- Whether an event ends the turn (`final_answer` or `error`). -/
def StreamEvent.isTerminal : StreamEvent → Bool
  | StreamEvent.finalAnswer _ => true
  | StreamEvent.error _ => true
  | _ => false

/-- Whether an event contributes a trace entry (`thought` or `step`). -/
def StreamEvent.isTraceEvent : StreamEvent → Bool
  | StreamEvent.thought _ => true
  | StreamEvent.step _ _ _ _ => true
  | _ => false

/-- The trace entry an event contributes, if any. -/
def StreamEvent.traceEntry : StreamEvent → Option TraceEntry
  | StreamEvent.thought c => some (TraceEntry.thought c)
  | StreamEvent.step i t a o => some (TraceEntry.action i t a o)
  | _ => none

/-- Whether a wire line classifies as a trace event. -/
def lineIsTraceEvent (l : String) : Bool :=
  match classifyLine l with
  | LineResult.event e => e.isTraceEvent
  | _ => false

/-- Whether a wire line classifies as a terminal event. -/
def lineIsTerminal (l : String) : Bool :=
  match classifyLine l with
  | LineResult.event e => e.isTerminal
  | _ => false

/-- The trace entry a wire line contributes, if any. -/
def lineTraceEntry (l : String) : Option TraceEntry :=
  match classifyLine l with
  | LineResult.event e => e.traceEntry
  | _ => none

/-- Folding the line processor over lines that all classify as trace events
leaves the committed records untouched and appends exactly the corresponding
trace entries, in order, to `currentSteps`. -/
theorem foldl_processLine_trace (ls : List String) :
    ∀ s : LoopState, (∀ l ∈ ls, lineIsTraceEvent l = true) →
      (List.foldl processLine s ls).commits = s.commits ∧
      (List.foldl processLine s ls).currentSteps
        = s.currentSteps ++ ls.filterMap lineTraceEntry := by
  induction ls with
  | nil => intro s _; simp
  | cons l ls ih =>
    intro s hall
    have hl : lineIsTraceEvent l = true := hall l (List.mem_cons_self l ls)
    have hrest : ∀ x ∈ ls, lineIsTraceEvent x = true :=
      fun x hx => hall x (List.mem_cons_of_mem _ hx)
    rcases hcl : classifyLine l with e | _
    · cases e with
      | thought c =>
          have hent : lineTraceEntry l = some (TraceEntry.thought c) := by
            simp [lineTraceEntry, hcl, StreamEvent.traceEntry]
          obtain ⟨ha, hb⟩ := ih
            { s with currentSteps := s.currentSteps ++ [TraceEntry.thought c],
                     currentThinkingSteps := s.currentSteps ++ [TraceEntry.thought c] } hrest
          constructor
          · simpa [processLine, hcl, processEvent] using ha
          · rw [List.foldl_cons]
            simp only [processLine, hcl, processEvent]
            rw [hb, List.filterMap_cons_some hent]
            simp [List.append_assoc]
      | step i t a o =>
          have hent : lineTraceEntry l = some (TraceEntry.action i t a o) := by
            simp [lineTraceEntry, hcl, StreamEvent.traceEntry]
          obtain ⟨ha, hb⟩ := ih
            { s with currentSteps := s.currentSteps ++ [TraceEntry.action i t a o],
                     currentThinkingSteps := s.currentSteps ++ [TraceEntry.action i t a o] } hrest
          constructor
          · simpa [processLine, hcl, processEvent] using ha
          · rw [List.foldl_cons]
            simp only [processLine, hcl, processEvent]
            rw [hb, List.filterMap_cons_some hent]
            simp [List.append_assoc]
      | finalAnswer c => simp [lineIsTraceEvent, hcl, StreamEvent.isTraceEvent] at hl
      | error c => simp [lineIsTraceEvent, hcl, StreamEvent.isTraceEvent] at hl
      | other => simp [lineIsTraceEvent, hcl, StreamEvent.isTraceEvent] at hl
    · simp [lineIsTraceEvent, hcl] at hl

/-- Processing a line that classifies as a terminal event appends one
conversation record carrying the current trace snapshot. -/
theorem processLine_terminal (s : LoopState) (tl : String)
    (ht : lineIsTerminal tl = true) :
    (processLine s tl).commits = s.commits ++ [⟨s.currentSteps, true⟩] := by
  rcases hcl : classifyLine tl with e | _
  · cases e with
    | finalAnswer c => simp [processLine, hcl, processEvent]
    | error c => simp [processLine, hcl, processEvent]
    | thought c => simp [lineIsTerminal, hcl, StreamEvent.isTerminal] at ht
    | step i t a o => simp [lineIsTerminal, hcl, StreamEvent.isTerminal] at ht
    | other => simp [lineIsTerminal, hcl, StreamEvent.isTerminal] at ht
  · simp [lineIsTerminal, hcl] at ht

/-- Claim C1: for a well-formed stream of event lines whose only terminal
event line is `tl`, the single committed record's trace is exactly the
ordered sequence of trace entries of the lines received before `tl`: no entry
is reordered, lost, duplicated, or added, and the terminal event itself
contributes no trace entry. -/
theorem committed_trace_matches_events (pre post : List String) (tl : String)
    (hpre : ∀ l ∈ pre, lineIsTraceEvent l = true)
    (hpost : ∀ l ∈ post, lineIsTraceEvent l = true)
    (ht : lineIsTerminal tl = true) :
    (List.foldl processLine initLoopState (pre ++ tl :: post)).commits
      = [⟨pre.filterMap lineTraceEntry, true⟩] := by
  rw [List.foldl_append, List.foldl_cons]
  obtain ⟨hc, hs⟩ := foldl_processLine_trace pre initLoopState hpre
  have hterm := processLine_terminal (List.foldl processLine initLoopState pre) tl ht
  have hpost2 := (foldl_processLine_trace post
    (processLine (List.foldl processLine initLoopState pre) tl) hpost).1
  rw [hpost2, hterm, hc, hs]
  simp [initLoopState]

theorem committed_trace_matches_events_w :
    (List.foldl processLine initLoopState
        (["\x7b\"type\":\"thought\",\"content\":\"need weather\"\x7d",
          "\x7b\"type\":\"step\",\"step\":1,\"thought\":\"check API\",\"action\":\"get_weather\",\"observation\":\"18C, cloudy\"\x7d"]
          ++ "\x7b\"type\":\"final_answer\",\"content\":\"It is 18C and cloudy in Paris.\"\x7d" :: [])).commits
      = [⟨["\x7b\"type\":\"thought\",\"content\":\"need weather\"\x7d",
           "\x7b\"type\":\"step\",\"step\":1,\"thought\":\"check API\",\"action\":\"get_weather\",\"observation\":\"18C, cloudy\"\x7d"].filterMap lineTraceEntry,
          true⟩] :=
  committed_trace_matches_events
    ["\x7b\"type\":\"thought\",\"content\":\"need weather\"\x7d",
     "\x7b\"type\":\"step\",\"step\":1,\"thought\":\"check API\",\"action\":\"get_weather\",\"observation\":\"18C, cloudy\"\x7d"]
    []
    "\x7b\"type\":\"final_answer\",\"content\":\"It is 18C and cloudy in Paris.\"\x7d"
    (by decide) (by decide) (by decide)

/-- Claim C5: while a turn is in flight (`isLoading = true`), `handleSend`
returns at the guard: no request is opened and the component state — the
in-flight trace, the loading flag and the committed history — is unchanged. -/
theorem send_while_loading_rejected (st : AppState) (outcome : FetchOutcome)
    (h : st.isLoading = true) :
    handleSend st outcome = ⟨st, false, false, []⟩ := by
  unfold handleSend
  rw [if_pos (Or.inr h)]

theorem send_while_loading_rejected_w :
    handleSend ⟨[], "hello", true, []⟩ (FetchOutcome.ok [])
      = ⟨⟨[], "hello", true, []⟩, false, false, []⟩ :=
  send_while_loading_rejected ⟨[], "hello", true, []⟩ (FetchOutcome.ok []) rfl

/-- Claim C10: a whitespace-only (or empty) input makes `handleSend` a no-op
(no request is opened and the state is unchanged), and any conversation
record a call appends carries the input with leading and trailing whitespace
removed as its user message. -/
theorem send_trims_input_and_ignores_blank (st : AppState) (outcome : FetchOutcome) :
    ((∀ c ∈ st.inputValue.data, isJsWhitespace c = true) →
        handleSend st outcome = ⟨st, false, false, []⟩) ∧
    ∃ added, (handleSend st outcome).state.conversations = st.conversations ++ added ∧
        ∀ cv ∈ added, cv.userMessage = jsTrim st.inputValue := by
  constructor
  · intro hws
    have hnil : st.inputValue.data.dropWhile isJsWhitespace = [] :=
      List.dropWhile_eq_nil_iff.mpr (fun x hx => hws x hx)
    have htrim : jsTrim st.inputValue = "" := by
      unfold jsTrim
      rw [hnil]
      rfl
    unfold handleSend
    rw [if_pos (Or.inl htrim)]
  · by_cases hguard : jsTrim st.inputValue = "" ∨ st.isLoading = true
    · refine ⟨[], ?_, by simp⟩
      unfold handleSend
      rw [if_pos hguard]
      simp
    · cases outcome with
      | failEarly =>
          refine ⟨[], ?_, by simp⟩
          unfold handleSend
          rw [if_neg hguard]
          simp
      | failMid chunks =>
          refine ⟨(runChunks chunks).commits.map
            (fun c => ⟨jsTrim st.inputValue, c.thinkingSteps,
              (runChunks chunks).assistantContent, c.showThinking⟩), ?_, ?_⟩
          · unfold handleSend
            rw [if_neg hguard]
          · intro cv hcv
            rcases List.mem_map.mp hcv with ⟨c, _, rfl⟩
            rfl
      | ok chunks =>
          refine ⟨(runChunks chunks).commits.map
            (fun c => ⟨jsTrim st.inputValue, c.thinkingSteps,
              (runChunks chunks).assistantContent, c.showThinking⟩), ?_, ?_⟩
          · unfold handleSend
            rw [if_neg hguard]
          · intro cv hcv
            rcases List.mem_map.mp hcv with ⟨c, _, rfl⟩
            rfl

theorem send_trims_input_and_ignores_blank_w :
    handleSend ⟨[], " \t ", false, []⟩ FetchOutcome.failEarly
      = ⟨⟨[], " \t ", false, []⟩, false, false, []⟩ :=
  (send_trims_input_and_ignores_blank ⟨[], " \t ", false, []⟩ FetchOutcome.failEarly).1
    (by decide)

/-- Claim C6: a line that fails to parse, arriving between two valid
step-event lines, is reported through the inner `catch` while both step
events are still accumulated as trace entries in arrival order; processing
continues past the malformed line. -/
theorem malformed_line_between_steps (s0 : LoopState) (l1 m l2 : String)
    (i1 t1 a1 o1 i2 t2 a2 o2 : Option JPrim)
    (h1 : classifyLine l1 = LineResult.event (StreamEvent.step i1 t1 a1 o1))
    (hm : classifyLine m = LineResult.parseFailure)
    (h2 : classifyLine l2 = LineResult.event (StreamEvent.step i2 t2 a2 o2)) :
    List.foldl processLine s0 [l1, m, l2]
      = { s0 with
          currentSteps := s0.currentSteps
            ++ [TraceEntry.action i1 t1 a1 o1, TraceEntry.action i2 t2 a2 o2],
          currentThinkingSteps := s0.currentSteps
            ++ [TraceEntry.action i1 t1 a1 o1, TraceEntry.action i2 t2 a2 o2],
          reportedLines := s0.reportedLines ++ [m] } := by
  simp [processLine, h1, hm, h2, processEvent, List.append_assoc]

theorem malformed_line_between_steps_w :
    List.foldl processLine initLoopState
        ["\x7b\"type\":\"step\",\"step\":1,\"thought\":\"check API\",\"action\":\"get_weather\",\"observation\":\"18C\"\x7d",
         "not json",
         "\x7b\"type\":\"step\",\"step\":2,\"thought\":\"t2\",\"action\":\"a2\",\"observation\":\"o2\"\x7d"]
      = { initLoopState with
          currentSteps := initLoopState.currentSteps
            ++ [TraceEntry.action (some (JPrim.num 1)) (some (JPrim.str "check API"))
                  (some (JPrim.str "get_weather")) (some (JPrim.str "18C")),
                TraceEntry.action (some (JPrim.num 2)) (some (JPrim.str "t2"))
                  (some (JPrim.str "a2")) (some (JPrim.str "o2"))],
          currentThinkingSteps := initLoopState.currentSteps
            ++ [TraceEntry.action (some (JPrim.num 1)) (some (JPrim.str "check API"))
                  (some (JPrim.str "get_weather")) (some (JPrim.str "18C")),
                TraceEntry.action (some (JPrim.num 2)) (some (JPrim.str "t2"))
                  (some (JPrim.str "a2")) (some (JPrim.str "o2"))],
          reportedLines := initLoopState.reportedLines ++ ["not json"] } :=
  malformed_line_between_steps initLoopState
    "\x7b\"type\":\"step\",\"step\":1,\"thought\":\"check API\",\"action\":\"get_weather\",\"observation\":\"18C\"\x7d"
    "not json"
    "\x7b\"type\":\"step\",\"step\":2,\"thought\":\"t2\",\"action\":\"a2\",\"observation\":\"o2\"\x7d"
    (some (JPrim.num 1)) (some (JPrim.str "check API"))
    (some (JPrim.str "get_weather")) (some (JPrim.str "18C"))
    (some (JPrim.num 2)) (some (JPrim.str "t2"))
    (some (JPrim.str "a2")) (some (JPrim.str "o2"))
    (by decide) (by decide) (by decide)

/-- Claim C7 counterexample: a stream with two terminal events commits two
conversation records (the second terminal event is processed, not ignored),
and the shared assistant message ends with the second terminal event's
content, so the first terminal event does not determine the displayed final
text. -/
theorem second_terminal_commits_second_turn :
    (runEvents [StreamEvent.finalAnswer (some (JPrim.str "A")),
                StreamEvent.finalAnswer (some (JPrim.str "B"))]).commits.length = 2 ∧
    (runEvents [StreamEvent.finalAnswer (some (JPrim.str "A")),
                StreamEvent.finalAnswer (some (JPrim.str "B"))]).assistantContent
      = some (JPrim.str "B") := by decide

/-- Folding the event dispatch adds one committed record per terminal event. -/
theorem foldl_processEvent_commits_length (evs : List StreamEvent) :
    ∀ s : LoopState,
      (List.foldl processEvent s evs).commits.length
        = s.commits.length + (evs.filter (fun e => e.isTerminal)).length := by
  induction evs with
  | nil => intro s; simp
  | cons e evs ih =>
    intro s
    cases e with
    | thought c =>
        simp only [List.foldl_cons, processEvent]
        rw [ih]
        simp [StreamEvent.isTerminal]
    | step i t a o =>
        simp only [List.foldl_cons, processEvent]
        rw [ih]
        simp [StreamEvent.isTerminal]
    | finalAnswer c =>
        simp only [List.foldl_cons, processEvent]
        rw [ih]
        simp [StreamEvent.isTerminal]
        omega
    | error c =>
        simp only [List.foldl_cons, processEvent]
        rw [ih]
        simp [StreamEvent.isTerminal]
        omega
    | other =>
        simp only [List.foldl_cons, processEvent]
        rw [ih]
        simp [StreamEvent.isTerminal]

/-- Claim C7 amended: each terminal event appends a conversation record, so
the number of committed records equals the number of terminal events in the
stream (a second terminal event is committed, not ignored; all records of
one send share the single assistant message object, whose content the last
terminal event determines). -/
theorem one_commit_per_terminal_event (evs : List StreamEvent) :
    (runEvents evs).commits.length = (evs.filter (fun e => e.isTerminal)).length := by
  have h := foldl_processEvent_commits_length evs initLoopState
  simpa [runEvents, initLoopState] using h

/-- Claim C2 evidence: on a transport failure (the fetch rejects or the
response status is not ok) the `catch` block dereferences the undefined
`setMessages`, so the call crashes with a ReferenceError and no conversation
record is ever committed; only the `finally` clears the loading flag. -/
theorem transport_error_commits_no_turn :
    handleSend ⟨[], "hi", false, []⟩ FetchOutcome.failEarly
      = ⟨⟨[], "", false, []⟩, true, true, []⟩ := by decide

/-- Claim C3 evidence: the loop splits every chunk on newlines independently,
with no carry-over buffer, so a step-event line split across two chunks is
parsed as two malformed fragments (both reported) and its event is lost,
while the same bytes in a single chunk yield the step entry. -/
theorem chunk_split_loses_step_event :
    (runChunks ["\x7b\"type\":\"step\",\"step\":1,\"thought\":\"check A",
                "PI\",\"action\":\"get_weather\",\"observation\":\"18C\"\x7d\n"]).currentSteps = [] ∧
    (runChunks ["\x7b\"type\":\"step\",\"step\":1,\"thought\":\"check A",
                "PI\",\"action\":\"get_weather\",\"observation\":\"18C\"\x7d\n"]).reportedLines.length = 2 ∧
    (runChunks ["\x7b\"type\":\"step\",\"step\":1,\"thought\":\"check A"
                ++ "PI\",\"action\":\"get_weather\",\"observation\":\"18C\"\x7d\n"]).currentSteps
      = [TraceEntry.action (some (JPrim.num 1)) (some (JPrim.str "check API"))
           (some (JPrim.str "get_weather")) (some (JPrim.str "18C"))] ∧
    runChunks ["\x7b\"type\":\"step\",\"step\":1,\"thought\":\"check A",
               "PI\",\"action\":\"get_weather\",\"observation\":\"18C\"\x7d\n"]
      ≠ runChunks ["\x7b\"type\":\"step\",\"step\":1,\"thought\":\"check A"
                   ++ "PI\",\"action\":\"get_weather\",\"observation\":\"18C\"\x7d\n"] := by decide

/-- Claim C4 evidence: when the stream reaches end-of-data after a step event
but before any terminal event, `handleSend` appends no conversation record at
all and leaves the partial trace in `currentThinkingSteps`; only the loading
flag is cleared. -/
theorem eof_without_terminal_commits_no_turn :
    handleSend ⟨[], "hi", false, []⟩
        (FetchOutcome.ok
          ["\x7b\"type\":\"step\",\"step\":1,\"thought\":\"t\",\"action\":\"a\",\"observation\":\"o\"\x7d\n"])
      = ⟨⟨[], "", false,
          [TraceEntry.action (some (JPrim.num 1)) (some (JPrim.str "t"))
             (some (JPrim.str "a")) (some (JPrim.str "o"))]⟩,
         true, false, []⟩ := by decide

/-- `toggleAt` leaves every position other than the target untouched. -/
theorem toggleAt_getElem_ne :
    ∀ (l : List Conv) (i j : Nat), j ≠ i → (toggleAt l i)[j]? = l[j]? := by
  intro l
  induction l with
  | nil => intro i j _; simp [toggleAt]
  | cons c cs ih =>
    intro i j hne
    cases i with
    | zero =>
      cases j with
      | zero => exact absurd rfl hne
      | succ j => simp [toggleAt]
    | succ i =>
      cases j with
      | zero => simp [toggleAt]
      | succ j =>
        have hj : j ≠ i := fun h => hne (by rw [h])
        simp [toggleAt, ih i j hj]

/-- At the target position, `toggleAt` flips `showThinking` and nothing else. -/
theorem toggleAt_getElem_self :
    ∀ (l : List Conv) (i : Nat), i < l.length →
      ∃ c, l[i]? = some c ∧
        (toggleAt l i)[i]? = some { c with showThinking := !c.showThinking } := by
  intro l
  induction l with
  | nil => intro i h; simp at h
  | cons c cs ih =>
    intro i h
    cases i with
    | zero => exact ⟨c, by simp [toggleAt]⟩
    | succ i =>
      obtain ⟨d, hd1, hd2⟩ := ih i (by simpa using h)
      exact ⟨d, by simpa [toggleAt] using hd1, by simpa [toggleAt] using hd2⟩

/-- Claim C8: toggling a valid index flips only that record's `showThinking`
flag; all its other fields and every other committed record are unchanged. -/
theorem toggleThinking_valid_flips_only_target (convs : List Conv) (i : Nat)
    (h : i < convs.length) :
    ∃ c, convs[i]? = some c ∧
      toggleThinking convs (Int.ofNat i) = Except.ok (toggleAt convs i) ∧
      (toggleAt convs i)[i]? = some { c with showThinking := !c.showThinking } ∧
      ∀ j : Nat, j ≠ i → (toggleAt convs i)[j]? = convs[j]? := by
  obtain ⟨c, hc1, hc2⟩ := toggleAt_getElem_self convs i h
  refine ⟨c, hc1, ?_, hc2, fun j hj => toggleAt_getElem_ne convs i j hj⟩
  unfold toggleThinking
  rw [if_pos]
  · simp
  · exact ⟨Int.ofNat_nonneg i, by simpa using h⟩

theorem toggleThinking_valid_flips_only_target_w :
    ∃ c, [(⟨"u1", [], some (JPrim.str "x"), true⟩ : Conv),
          ⟨"u2", [], some (JPrim.str "y"), false⟩][0]? = some c ∧
      toggleThinking [(⟨"u1", [], some (JPrim.str "x"), true⟩ : Conv),
          ⟨"u2", [], some (JPrim.str "y"), false⟩] (Int.ofNat 0)
        = Except.ok (toggleAt [(⟨"u1", [], some (JPrim.str "x"), true⟩ : Conv),
            ⟨"u2", [], some (JPrim.str "y"), false⟩] 0) ∧
      (toggleAt [(⟨"u1", [], some (JPrim.str "x"), true⟩ : Conv),
          ⟨"u2", [], some (JPrim.str "y"), false⟩] 0)[0]?
        = some { c with showThinking := !c.showThinking } ∧
      ∀ j : Nat, j ≠ 0 →
        (toggleAt [(⟨"u1", [], some (JPrim.str "x"), true⟩ : Conv),
            ⟨"u2", [], some (JPrim.str "y"), false⟩] 0)[j]?
          = [(⟨"u1", [], some (JPrim.str "x"), true⟩ : Conv),
             ⟨"u2", [], some (JPrim.str "y"), false⟩][j]? :=
  toggleThinking_valid_flips_only_target
    [⟨"u1", [], some (JPrim.str "x"), true⟩, ⟨"u2", [], some (JPrim.str "y"), false⟩]
    0 (by decide)

/-- Claim C9 counterexample: toggling index 1 of a one-element history does
not no-op and does not raise a documented invalid-index error: it faults with
a TypeError (reading `showThinking` of `undefined`). -/
theorem toggle_out_of_range_faults :
    toggleThinking [⟨"q", [], some (JPrim.str "a"), true⟩] 1
      = Except.error JsError.typeError := rfl

/-- Claim C9 amended: for every index outside the committed history (negative
or not less than the history length) `toggleThinking` faults with a
TypeError; it is neither a no-op nor a documented invalid-index error. -/
theorem toggle_invalid_index_typeerror (convs : List Conv) (i : Int)
    (h : ¬(0 ≤ i ∧ i.toNat < convs.length)) :
    toggleThinking convs i = Except.error JsError.typeError := by
  unfold toggleThinking
  rw [if_neg h]

theorem toggle_invalid_index_typeerror_w :
    toggleThinking [] 0 = Except.error JsError.typeError :=
  toggle_invalid_index_typeerror [] 0 (by decide)
